import Mathlib

/-!
Shallow embedding of the CCD ("Camcorder Color Denoise") VapourSynth filter,
translated from `src/ccd.cpp` (the canonical VS API v4 source).  Pixel samples
(32-bit floats in the source) are modelled as exact rationals `ℚ`; machine
int coordinates are modelled as `ℤ`.  Planes are modelled logically, as total
functions from (row, column) coordinates to sample values; strides are a
memory-layout detail that does not affect which logical pixel is read.
-/

namespace CCD

/-- The helper `square (x) = x * x` from the source (a C++ template). -/
def square {α : Type} [Mul α] (x : α) : α := x * x

/-- The helper `clip (x, mi, ma)`: `(x < mi) ? mi : (x > ma) ? ma : x`. -/
def clip (x mi ma : ℚ) : ℚ := if x < mi then mi else if x > ma then ma else x

/-- The reflection map for out-of-bound coordinates:
`(x >= w) ? w * 2 - (x + 2) : abs (x)`. -/
def wrap_oob_coord (x w : ℤ) : ℤ := if x ≥ w then w * 2 - (x + 2) else |x|

/-- `constexpr auto max_radius = 12`: kernel radius in pixels. -/
def max_radius : ℕ := 12

/-- `constexpr auto min_step = 8`: subsampling step of the kernel scan. -/
def min_step : ℕ := 8

/-- `constexpr auto max_kernel_samples = square(1 + max_radius * 2 / min_step)`. -/
def max_kernel_samples : ℕ := square (1 + max_radius * 2 / min_step)

/-- `constexpr auto max_weight = 1 + max_kernel_samples`: the reference pixel
is always included in addition to the kernel scan. -/
def max_weight : ℕ := 1 + max_kernel_samples

/-- The table built by `init_reciprocal_table`: a zero-initialised array of
`1 + max_weight` entries whose slots `1 .. max_weight` hold `1 / i`. -/
def RCP_TABLE (i : ℕ) : ℚ := if 1 ≤ i ∧ i ≤ max_weight then 1 / (i : ℚ) else 0

/-- A planar RGB frame: three equal-sized planes of samples addressed as
`plane row column`, plus the shared width and height. -/
structure Frame where
  width : ℤ
  height : ℤ
  r : ℤ → ℤ → ℚ
  g : ℤ → ℤ → ℚ
  b : ℤ → ℤ → ℚ

/-- The per-axis loop `for (d = c - radius; d <= c + radius; d += step)`
expressed as the list of offsets it visits, relative to the center `c`:
`-radius, -radius + step, ...` while the offset stays `≤ radius`. -/
def kernel_offsets (radius step : ℕ) : List ℤ :=
  (List.range (2 * radius / step + 1)).map (fun k => (k : ℤ) * step - radius)

/-- The (row, column) coordinate pairs visited by the two nested scan loops of
`ccdRun` for the center pixel at column `x`, row `y`, in loop order (outer
loop over `dy`, inner loop over `dx`). -/
def scan_pairs (x y : ℤ) : List (ℤ × ℤ) :=
  (kernel_offsets max_radius min_step).flatMap
    (fun ody => (kernel_offsets max_radius min_step).map (fun odx => (y + ody, x + odx)))

/-- The squared L2 color distance computed in the inner loop for scan pair `p`
against the center color `(r, g, b)`:
`square(diff_r) + square(diff_g) + square(diff_b)`, where the neighbor color is
fetched at the reflected coordinates. -/
def l2norm_sq (f : Frame) (r g b : ℚ) (p : ℤ × ℤ) : ℚ :=
  let comp_y := wrap_oob_coord p.1 f.height
  let comp_x := wrap_oob_coord p.2 f.width
  square (f.r comp_y comp_x - r) + square (f.g comp_y comp_x - g) +
    square (f.b comp_y comp_x - b)

/-- The running accumulator of the scan: `total_r`, `total_g`, `total_b` and
the neighbor count `n`. -/
structure KAcc where
  total_r : ℚ
  total_g : ℚ
  total_b : ℚ
  n : ℕ
deriving DecidableEq, Repr

/-- One iteration of the inner scan loop of `ccdRun`: fetch the neighbor at
the reflected coordinates, and if `thr_sq > l2norm_sq` (strict) add its color
into the accumulator and increment `n`; otherwise leave the accumulator
unchanged. -/
def visit (f : Frame) (thr_sq r g b : ℚ) (acc : KAcc) (p : ℤ × ℤ) : KAcc :=
  let comp_y := wrap_oob_coord p.1 f.height
  let comp_x := wrap_oob_coord p.2 f.width
  if thr_sq > l2norm_sq f r g b p then
    ⟨acc.total_r + f.r comp_y comp_x, acc.total_g + f.g comp_y comp_x,
     acc.total_b + f.b comp_y comp_x, acc.n + 1⟩
  else acc

/-- The accumulator after the full scan for the pixel at column `x`, row `y`:
it starts from the reference pixel's own color with `n = 1` and folds the
inner-loop body over all scan pairs in loop order. -/
def scanAcc (f : Frame) (thr_sq : ℚ) (x y : ℤ) : KAcc :=
  (scan_pairs x y).foldl (visit f thr_sq (f.r y x) (f.g y x) (f.b y x))
    ⟨f.r y x, f.g y x, f.b y x, 1⟩

/-- An RGB triple, the per-pixel output of the kernel. -/
structure RGB where
  r : ℚ
  g : ℚ
  b : ℚ
deriving DecidableEq, Repr

/-- The per-pixel body of `ccdRun`: scan, multiply the accumulated totals by
`RCP_TABLE[n]`, clamp each channel to `[0, 1]` with `clip`, and return the
three values written to the destination planes at `(x, y)`. -/
def ccdPixel (f : Frame) (thr_sq : ℚ) (x y : ℤ) : RGB :=
  ⟨clip ((scanAcc f thr_sq x y).total_r * RCP_TABLE (scanAcc f thr_sq x y).n) 0 1,
   clip ((scanAcc f thr_sq x y).total_g * RCP_TABLE (scanAcc f thr_sq x y).n) 0 1,
   clip ((scanAcc f thr_sq x y).total_b * RCP_TABLE (scanAcc f thr_sq x y).n) 0 1⟩

/-- `ccdRun`: reads only the source frame and produces the destination frame
of the same width and height, every sample of which is the per-pixel kernel
output.  The source nested loops write each destination sample exactly once
and never write the source planes, so the transform is this pure function. -/
def ccdRun (f : Frame) (thr_sq : ℚ) : Frame :=
  { width := f.width
    height := f.height
    r := fun y x => (ccdPixel f thr_sq x y).r
    g := fun y x => (ccdPixel f thr_sq x y).g
    b := fun y x => (ccdPixel f thr_sq x y).b }

/-- Sample type of a video format (`stInteger` / `stFloat`). -/
inductive SampleType where
  | stInteger
  | stFloat
deriving DecidableEq, Repr

/-- Color family of a video format. -/
inductive ColorFamily where
  | cfUndefined
  | cfGray
  | cfRGB
  | cfYUV
deriving DecidableEq, Repr

/-- The fields of `VSVideoFormat` inspected by `ccdCreate`. -/
structure VSVideoFormat where
  sampleType : SampleType
  bitsPerSample : ℕ
  colorFamily : ColorFamily
  subSamplingH : ℕ
  subSamplingW : ℕ
deriving DecidableEq, Repr

/-- The fields of `VSVideoInfo` inspected by `ccdCreate`. -/
structure VSVideoInfo where
  format : VSVideoFormat
  width : ℤ
  height : ℤ
deriving DecidableEq, Repr

/-- The observable steps of `ccdCreate`, in source order: the conversion of
the user threshold to `thr_sq`, the three validation checks, error reporting
via `mapSetError`, and the final `createVideoFilter` call. -/
inductive CreateEvent where
  | computeThrSq
  | checkFormat
  | checkDims
  | checkThreshold
  | setError (msg : String)
  | createFilter
deriving DecidableEq, Repr

/-- `ccdCreate`, modelled with its event trace.  Following the source order:
the `threshold` argument defaults to `4` when absent, `thr_sq` is computed as
`square (thr_user / (255 * sqrt 3))` — kept in `ℚ` as `square thr_user /
195075`, the source's own comment noting the formula equals `thr * thr /
195075` — and then the format check, the minimum-dimension check and the
non-negative-threshold check run in that order, each reporting its error and
returning without creating the filter; if all pass the filter is created with
the computed `thr_sq`. -/
def ccdCreateT (vi : VSVideoInfo) (threshold : Option ℚ) :
    List CreateEvent × Except String ℚ :=
  let thr_user := threshold.getD 4
  let thr_sq := square thr_user / 195075
  if vi.format.sampleType ≠ SampleType.stFloat ∨ vi.format.bitsPerSample ≠ 32 ∨
      vi.format.colorFamily ≠ ColorFamily.cfRGB ∨ vi.format.subSamplingH ≠ 0 ∨
      vi.format.subSamplingW ≠ 0 then
    ([CreateEvent.computeThrSq, CreateEvent.checkFormat,
      CreateEvent.setError "CCD: Input clip must be RGBS"],
     Except.error "CCD: Input clip must be RGBS")
  else if vi.width < (max_radius : ℤ) ∨ vi.height < (max_radius : ℤ) then
    ([CreateEvent.computeThrSq, CreateEvent.checkFormat, CreateEvent.checkDims,
      CreateEvent.setError "CCD: Input clip dimensions must be at least 12x12"],
     Except.error "CCD: Input clip dimensions must be at least 12x12")
  else if thr_user < 0 then
    ([CreateEvent.computeThrSq, CreateEvent.checkFormat, CreateEvent.checkDims,
      CreateEvent.checkThreshold, CreateEvent.setError "CCD: Threshold must be >= 0"],
     Except.error "CCD: Threshold must be >= 0")
  else
    ([CreateEvent.computeThrSq, CreateEvent.checkFormat, CreateEvent.checkDims,
      CreateEvent.checkThreshold, CreateEvent.createFilter],
     Except.ok thr_sq)

/-- The result of `ccdCreate`: the configured `thr_sq` on success, the
reported error message on a validation failure. -/
def ccdCreate (vi : VSVideoInfo) (threshold : Option ℚ) : Except String ℚ :=
  (ccdCreateT vi threshold).2

/-- The RGBS format: 32-bit float RGB with no chroma subsampling. -/
def rgbsFormat : VSVideoFormat :=
  ⟨SampleType.stFloat, 32, ColorFamily.cfRGB, 0, 0⟩

/-- A 16×16 RGBS clip description. -/
def vi16 : VSVideoInfo := ⟨rgbsFormat, 16, 16⟩

/-- A 12×12 RGBS clip description — the smallest size the configuration
check accepts. -/
def vi12 : VSVideoInfo := ⟨rgbsFormat, 12, 12⟩

/-- A 16×16 frame with every pixel equal to `(0.5, 0.5, 0.5)`. -/
def uniformGray : Frame :=
  ⟨16, 16, fun _ _ => 1/2, fun _ _ => 1/2, fun _ _ => 1/2⟩

/-- An 8×8 RGBS clip description, below the minimum accepted dimensions. -/
def viSmall : VSVideoInfo := ⟨rgbsFormat, 8, 8⟩

/-- The per-axis offsets for the fixed radius 12 and step 8. -/
theorem kernel_offsets_eq : kernel_offsets max_radius min_step = [-12, -4, 4, 12] := by
  decide

/-- The sixteen scan pairs, written out in loop order. -/
theorem scan_pairs_eq (x y : ℤ) :
    scan_pairs x y =
      [(y + -12, x + -12), (y + -12, x + -4), (y + -12, x + 4), (y + -12, x + 12),
       (y + -4, x + -12), (y + -4, x + -4), (y + -4, x + 4), (y + -4, x + 12),
       (y + 4, x + -12), (y + 4, x + -4), (y + 4, x + 4), (y + 4, x + 12),
       (y + 12, x + -12), (y + 12, x + -4), (y + 12, x + 4), (y + 12, x + 12)] := by
  rw [scan_pairs, kernel_offsets_eq]
  rfl

theorem l2norm_sq_nonneg (f : Frame) (r g b : ℚ) (p : ℤ × ℤ) :
    0 ≤ l2norm_sq f r g b p := by
  unfold l2norm_sq square
  exact add_nonneg (add_nonneg (mul_self_nonneg _) (mul_self_nonneg _)) (mul_self_nonneg _)

theorem visit_pos (f : Frame) (thr_sq r g b : ℚ) (acc : KAcc) (p : ℤ × ℤ)
    (h : l2norm_sq f r g b p < thr_sq) :
    visit f thr_sq r g b acc p =
      ⟨acc.total_r + f.r (wrap_oob_coord p.1 f.height) (wrap_oob_coord p.2 f.width),
       acc.total_g + f.g (wrap_oob_coord p.1 f.height) (wrap_oob_coord p.2 f.width),
       acc.total_b + f.b (wrap_oob_coord p.1 f.height) (wrap_oob_coord p.2 f.width),
       acc.n + 1⟩ := by
  unfold visit
  rw [if_pos h]

theorem visit_neg (f : Frame) (thr_sq r g b : ℚ) (acc : KAcc) (p : ℤ × ℤ)
    (h : ¬ l2norm_sq f r g b p < thr_sq) :
    visit f thr_sq r g b acc p = acc := by
  unfold visit
  rw [if_neg h]

/-- The neighbor count after folding the scan body over any pair list equals
the starting count plus the number of pairs passing the strict threshold
test. -/
theorem foldl_visit_n (f : Frame) (thr_sq r g b : ℚ) (l : List (ℤ × ℤ)) (acc : KAcc) :
    (l.foldl (visit f thr_sq r g b) acc).n =
      acc.n + l.countP (fun p => decide (l2norm_sq f r g b p < thr_sq)) := by
  induction l generalizing acc with
  | nil => simp
  | cons p l ih =>
    rw [List.foldl_cons, List.countP_cons, ih]
    by_cases h : l2norm_sq f r g b p < thr_sq
    · rw [visit_pos f thr_sq r g b acc p h]
      simp [h]
      omega
    · rw [visit_neg f thr_sq r g b acc p h]
      simp [h]

/-- If no pair passes the threshold test, the fold leaves the accumulator
unchanged. -/
theorem foldl_visit_of_countP_zero (f : Frame) (thr_sq r g b : ℚ) (l : List (ℤ × ℤ))
    (acc : KAcc)
    (h : l.countP (fun p => decide (l2norm_sq f r g b p < thr_sq)) = 0) :
    l.foldl (visit f thr_sq r g b) acc = acc := by
  induction l generalizing acc with
  | nil => simp
  | cons p l ih =>
    rw [List.countP_cons] at h
    by_cases hp : l2norm_sq f r g b p < thr_sq
    · simp [hp] at h
    · rw [List.foldl_cons, visit_neg f thr_sq r g b acc p hp]
      refine ih acc ?_
      simpa [hp] using h

/-- With a zero threshold, the strict test fails for every pair. -/
theorem countP_zero_thr (f : Frame) (r g b : ℚ) (l : List (ℤ × ℤ)) :
    l.countP (fun p => decide (l2norm_sq f r g b p < 0)) = 0 := by
  rw [List.countP_eq_zero]
  intro p _
  simp only [decide_eq_true_eq, not_lt]
  exact l2norm_sq_nonneg f r g b p

/-- The scan accumulator's count, decomposed. -/
theorem scanAcc_n (f : Frame) (thr_sq : ℚ) (x y : ℤ) :
    (scanAcc f thr_sq x y).n =
      1 + (scan_pairs x y).countP
        (fun p => decide (l2norm_sq f (f.r y x) (f.g y x) (f.b y x) p < thr_sq)) := by
  unfold scanAcc
  rw [foldl_visit_n]

/-- With a zero threshold the scan accumulator stays at the reference pixel. -/
theorem scanAcc_zero (f : Frame) (x y : ℤ) :
    scanAcc f 0 x y = ⟨f.r y x, f.g y x, f.b y x, 1⟩ := by
  unfold scanAcc
  exact foldl_visit_of_countP_zero _ _ _ _ _ _ _ (countP_zero_thr _ _ _ _ _)

theorem clip01_bounds (x : ℚ) : 0 ≤ clip x 0 1 ∧ clip x 0 1 ≤ 1 := by
  unfold clip
  split
  · norm_num
  · split
    · norm_num
    · constructor <;> linarith [not_lt.mp (by assumption : ¬ x < 0), not_lt.mp (by assumption : ¬ x > 1)]

theorem clip01_id (x : ℚ) (h0 : 0 ≤ x) (h1 : x ≤ 1) : clip x 0 1 = x := by
  unfold clip
  rw [if_neg (not_lt.mpr h0), if_neg (not_lt.mpr h1)]

theorem RCP_TABLE_one : RCP_TABLE 1 = 1 := by
  norm_num [RCP_TABLE, max_weight, max_kernel_samples, square, max_radius, min_step]

theorem wrap_id (x w : ℤ) (h0 : 0 ≤ x) (hw : x < w) : wrap_oob_coord x w = x := by
  unfold wrap_oob_coord
  rw [if_neg (by omega), abs_of_nonneg h0]

/-- The reflected coordinate lies in `[0, w)` whenever the center coordinate
is in range, the offset is at most 12 in magnitude, and `w ≥ 13`. -/
theorem wrap_mem (x w d : ℤ) (hw : 13 ≤ w) (hx0 : 0 ≤ x) (hxw : x < w)
    (hd1 : -12 ≤ d) (hd2 : d ≤ 12) :
    0 ≤ wrap_oob_coord (x + d) w ∧ wrap_oob_coord (x + d) w < w := by
  unfold wrap_oob_coord
  split
  · omega
  · rcases le_or_lt 0 (x + d) with h | h
    · rw [abs_of_nonneg h]; omega
    · rw [abs_of_neg h]; omega

/-- On the uniform gray frame every visit adds the neighbor: the squared
distance is zero, strictly below any positive threshold. -/
theorem visit_uniform (t : ℚ) (ht : 0 < t) (acc : KAcc) (p : ℤ × ℤ) :
    visit uniformGray t (1/2) (1/2) (1/2) acc p =
      ⟨acc.total_r + 1/2, acc.total_g + 1/2, acc.total_b + 1/2, acc.n + 1⟩ := by
  have hl2 : l2norm_sq uniformGray (1/2) (1/2) (1/2) p = 0 := by
    simp [l2norm_sq, uniformGray, square]
  rw [visit_pos uniformGray t (1/2) (1/2) (1/2) acc p (by rw [hl2]; exact ht)]
  rfl

theorem foldl_visit_uniform (t : ℚ) (ht : 0 < t) (l : List (ℤ × ℤ)) (acc : KAcc) :
    l.foldl (visit uniformGray t (1/2) (1/2) (1/2)) acc =
      ⟨acc.total_r + l.length * (1/2), acc.total_g + l.length * (1/2),
       acc.total_b + l.length * (1/2), acc.n + l.length⟩ := by
  induction l generalizing acc with
  | nil => simp
  | cons p l ih =>
    rw [List.foldl_cons, visit_uniform t ht acc p, ih]
    simp only [List.length_cons, Nat.cast_add, Nat.cast_one, KAcc.mk.injEq]
    refine ⟨by ring, by ring, by ring, by omega⟩

theorem scanAcc_uniform (t : ℚ) (ht : 0 < t) (x y : ℤ) :
    scanAcc uniformGray t x y = ⟨17/2, 17/2, 17/2, 17⟩ := by
  show (scan_pairs x y).foldl (visit uniformGray t (1/2) (1/2) (1/2)) ⟨1/2, 1/2, 1/2, 1⟩ =
    ⟨17/2, 17/2, 17/2, 17⟩
  rw [foldl_visit_uniform t ht, show (scan_pairs x y).length = 16 by rw [scan_pairs_eq]; rfl]
  simp only [KAcc.mk.injEq]
  norm_num

/-- When the scan kept only the reference pixel, the kernel output equals the
input pixel, provided it already lies in `[0, 1]`. -/
theorem ccdPixel_id_of_init (f : Frame) (thr_sq : ℚ) (x y : ℤ)
    (hz : scanAcc f thr_sq x y = ⟨f.r y x, f.g y x, f.b y x, 1⟩)
    (hr0 : 0 ≤ f.r y x) (hr1 : f.r y x ≤ 1) (hg0 : 0 ≤ f.g y x) (hg1 : f.g y x ≤ 1)
    (hb0 : 0 ≤ f.b y x) (hb1 : f.b y x ≤ 1) :
    ccdPixel f thr_sq x y = ⟨f.r y x, f.g y x, f.b y x⟩ := by
  unfold ccdPixel
  rw [hz]
  simp only [RCP_TABLE_one, mul_one]
  rw [clip01_id _ hr0 hr1, clip01_id _ hg0 hg1, clip01_id _ hb0 hb1]

/-- A neighbor count of 1 forces the scan to have rejected every pair, so the
accumulator is still the initial one. -/
theorem scanAcc_of_n_eq_one (f : Frame) (thr_sq : ℚ) (x y : ℤ)
    (hn : (scanAcc f thr_sq x y).n = 1) :
    scanAcc f thr_sq x y = ⟨f.r y x, f.g y x, f.b y x, 1⟩ := by
  have h := scanAcc_n f thr_sq x y
  rw [hn] at h
  unfold scanAcc
  exact foldl_visit_of_countP_zero _ _ _ _ _ _ _ (by omega)

/-- C1 (counterexample): the claim is false as stated.  The configuration
accepts a 12×12 RGBS clip (the dimension check only requires width and height
`≥ max_radius = 12`), yet for the in-range pixel `(11, 11)` the kernel scan
visits the raw coordinate pair `(23, 23)`, and the reflection map sends
column 23 to `2*12 - (23 + 2) = -1`, which is outside `[0, width)`. -/
theorem wrap_oob_claim_false :
    (ccdCreate vi12 (some 4)).isOk = true ∧
    ((23 : ℤ), (23 : ℤ)) ∈ scan_pairs 11 11 ∧
    (0 ≤ (11 : ℤ) ∧ (11 : ℤ) < vi12.width) ∧
    wrap_oob_coord 23 vi12.width = -1 ∧
    ¬ 0 ≤ wrap_oob_coord 23 vi12.width := by
  decide

/-- C1 (amended): for frames with width and height at least `radius + 1 = 13`,
every coordinate produced by `wrap_oob_coord` during the kernel scan of an
in-range pixel lies within `[0, width) × [0, height)`; moreover coordinates
`≥ w` map to `w * 2 - (x + 2)` and in-range-or-negative coordinates map to
their absolute value. -/
theorem wrap_oob_in_bounds (f : Frame) (x y : ℤ) (p : ℤ × ℤ) (a w : ℤ)
    (hw : 13 ≤ f.width) (hh : 13 ≤ f.height)
    (hx0 : 0 ≤ x) (hxw : x < f.width) (hy0 : 0 ≤ y) (hyh : y < f.height)
    (hp : p ∈ scan_pairs x y) :
    (0 ≤ wrap_oob_coord p.1 f.height ∧ wrap_oob_coord p.1 f.height < f.height) ∧
    (0 ≤ wrap_oob_coord p.2 f.width ∧ wrap_oob_coord p.2 f.width < f.width) ∧
    (w ≤ a → wrap_oob_coord a w = w * 2 - (a + 2)) ∧
    (a < w → wrap_oob_coord a w = |a|) := by
  unfold scan_pairs at hp
  rw [List.mem_flatMap] at hp
  obtain ⟨ody, hody, hp⟩ := hp
  rw [List.mem_map] at hp
  obtain ⟨odx, hodx, rfl⟩ := hp
  rw [kernel_offsets_eq] at hody hodx
  simp only [List.mem_cons, List.not_mem_nil, or_false] at hody hodx
  refine ⟨wrap_mem y f.height ody hh hy0 hyh (by omega) (by omega),
          wrap_mem x f.width odx hw hx0 hxw (by omega) (by omega), ?_, ?_⟩
  · intro h
    unfold wrap_oob_coord
    rw [if_pos h]
  · intro h
    unfold wrap_oob_coord
    rw [if_neg (not_le.mpr h)]

/-- Witness for the amended C1 theorem at the 16×16 uniform frame, the corner
pixel `(0, 0)`, the scan pair with offset `(-12, -12)`, and the concrete
reflection inputs `a = 20`, `w = 16`. -/
theorem wrap_oob_in_bounds_witness :
    ((0 ≤ wrap_oob_coord (0 + -12) uniformGray.height ∧
      wrap_oob_coord (0 + -12) uniformGray.height < uniformGray.height) ∧
     (0 ≤ wrap_oob_coord (0 + -12) uniformGray.width ∧
      wrap_oob_coord (0 + -12) uniformGray.width < uniformGray.width) ∧
     ((16 : ℤ) ≤ 20 → wrap_oob_coord 20 16 = 16 * 2 - (20 + 2)) ∧
     ((20 : ℤ) < 16 → wrap_oob_coord 20 16 = |(20 : ℤ)|)) :=
  wrap_oob_in_bounds uniformGray 0 0 (0 + -12, 0 + -12) 20 16 (by decide) (by decide)
    (by decide) (by decide) (by decide) (by decide) (by decide)

/-- C2: with `thr_sq = 0` the strict test `thr_sq > d²` fails for every
neighbor, so the neighbor count stays 1 and the output pixel equals the
input pixel unchanged whenever the input pixel lies in `[0, 1]` (the clamp is
then a no-op). -/
theorem zero_threshold_identity (f : Frame) (x y : ℤ)
    (hr0 : 0 ≤ f.r y x) (hr1 : f.r y x ≤ 1) (hg0 : 0 ≤ f.g y x) (hg1 : f.g y x ≤ 1)
    (hb0 : 0 ≤ f.b y x) (hb1 : f.b y x ≤ 1) :
    (scanAcc f 0 x y).n = 1 ∧ ccdPixel f 0 x y = ⟨f.r y x, f.g y x, f.b y x⟩ := by
  refine ⟨by rw [scanAcc_zero], ?_⟩
  exact ccdPixel_id_of_init f 0 x y (scanAcc_zero f x y) hr0 hr1 hg0 hg1 hb0 hb1

/-- Witness for C2 at the uniform gray frame and pixel `(3, 3)`. -/
theorem zero_threshold_identity_witness :
    (scanAcc uniformGray 0 3 3).n = 1 ∧
    ccdPixel uniformGray 0 3 3 = ⟨1/2, 1/2, 1/2⟩ :=
  zero_threshold_identity uniformGray 3 3 (by norm_num [uniformGray])
    (by norm_num [uniformGray]) (by norm_num [uniformGray]) (by norm_num [uniformGray])
    (by norm_num [uniformGray]) (by norm_num [uniformGray])

/-- C3: the kernel scan visits exactly the 16 offset pairs built from the
per-axis offsets `{-12, -4, 4, 12}`; the zero offset is never visited, so the
center pixel enters the accumulator exactly once — unconditionally, as the
initial accumulator with count 1 — and the final count is `1` plus the number
of accepted pairs, hence always between 1 and `max_weight = 17`. -/
theorem scan_geometry (f : Frame) (thr_sq : ℚ) (x y : ℤ) :
    kernel_offsets max_radius min_step = [-12, -4, 4, 12] ∧
    (0 : ℤ) ∉ kernel_offsets max_radius min_step ∧
    (scan_pairs x y).length = 16 ∧
    (y, x) ∉ scan_pairs x y ∧
    (scanAcc f thr_sq x y).n =
      1 + (scan_pairs x y).countP
        (fun p => decide (l2norm_sq f (f.r y x) (f.g y x) (f.b y x) p < thr_sq)) ∧
    1 ≤ (scanAcc f thr_sq x y).n ∧
    (scanAcc f thr_sq x y).n ≤ max_weight ∧
    max_weight = 17 := by
  have hn := scanAcc_n f thr_sq x y
  have hc := List.countP_le_length
    (fun p => decide (l2norm_sq f (f.r y x) (f.g y x) (f.b y x) p < thr_sq))
    (l := scan_pairs x y)
  have hlen : (scan_pairs x y).length = 16 := by rw [scan_pairs_eq]; rfl
  have hmw : max_weight = 17 := by decide
  refine ⟨kernel_offsets_eq, by decide, hlen, ?_, hn, by omega, by omega, hmw⟩
  intro hmem
  rw [scan_pairs_eq] at hmem
  simp only [List.mem_cons, List.not_mem_nil, or_false, Prod.mk.injEq] at hmem
  omega

/-- C4: a sampled neighbor is added to the accumulator (and `n` incremented)
exactly when `thr_sq > d²` holds strictly; when the test fails — in
particular at a tie `d² = thr_sq` — the accumulator is unchanged. -/
theorem strict_inclusion (f : Frame) (thr_sq r g b : ℚ) (acc : KAcc) (p : ℤ × ℤ) :
    (l2norm_sq f r g b p < thr_sq →
      visit f thr_sq r g b acc p =
        ⟨acc.total_r + f.r (wrap_oob_coord p.1 f.height) (wrap_oob_coord p.2 f.width),
         acc.total_g + f.g (wrap_oob_coord p.1 f.height) (wrap_oob_coord p.2 f.width),
         acc.total_b + f.b (wrap_oob_coord p.1 f.height) (wrap_oob_coord p.2 f.width),
         acc.n + 1⟩) ∧
    (¬ l2norm_sq f r g b p < thr_sq → visit f thr_sq r g b acc p = acc) ∧
    (l2norm_sq f r g b p = thr_sq → visit f thr_sq r g b acc p = acc) := by
  refine ⟨visit_pos f thr_sq r g b acc p, visit_neg f thr_sq r g b acc p, ?_⟩
  intro h
  exact visit_neg f thr_sq r g b acc p (by rw [h]; exact lt_irrefl thr_sq)

/-- Witness for C4: on the uniform gray frame with `thr_sq = 0` the distance
is exactly the threshold, and the tie is excluded. -/
theorem strict_inclusion_witness :
    visit uniformGray 0 (1/2) (1/2) (1/2) ⟨1/2, 1/2, 1/2, 1⟩ (3, 3) =
      ⟨1/2, 1/2, 1/2, 1⟩ :=
  (strict_inclusion uniformGray 0 (1/2) (1/2) (1/2) ⟨1/2, 1/2, 1/2, 1⟩ (3, 3)).2.2
    (by simp [l2norm_sq, uniformGray, square])

/-- C5 (counterexample): the claim is false as stated.  On a valid 16×16 RGBS
clip with threshold `-1`, `ccdCreate` computes `thr_sq` (trace index 0)
strictly before it validates the threshold (trace index 3): the validation
does not precede the conversion. -/
theorem threshold_order_claim_false :
    ¬ ((ccdCreateT vi16 (some (-1))).1.indexOf CreateEvent.checkThreshold <
       (ccdCreateT vi16 (some (-1))).1.indexOf CreateEvent.computeThrSq) ∧
    (ccdCreateT vi16 (some (-1))).1.indexOf CreateEvent.computeThrSq <
      (ccdCreateT vi16 (some (-1))).1.indexOf CreateEvent.checkThreshold := by
  decide

/-- C5 (amended): the threshold defaults to 4 when absent; it is converted to
`thr_sq = (threshold / (255·sqrt 3))²` before being validated as `≥ 0`; and a
negative threshold is a configuration error, reported without the filter ever
being created (so the kernel is never invoked). -/
theorem threshold_config (vi : VSVideoInfo) (t : ℚ) (t? : Option ℚ) :
    ccdCreateT vi none = ccdCreateT vi (some 4) ∧
    (CreateEvent.checkThreshold ∈ (ccdCreateT vi t?).1 →
      (ccdCreateT vi t?).1.indexOf CreateEvent.computeThrSq <
        (ccdCreateT vi t?).1.indexOf CreateEvent.checkThreshold) ∧
    (t < 0 →
      (∃ msg, ccdCreate vi (some t) = Except.error msg) ∧
      CreateEvent.createFilter ∉ (ccdCreateT vi (some t)).1) := by
  refine ⟨rfl, ?_, ?_⟩
  · simp only [ccdCreateT]
    split
    · dsimp only
      decide
    · split
      · dsimp only
        decide
      · split
        · dsimp only
          decide
        · dsimp only
          decide
  · intro ht
    unfold ccdCreate
    simp only [ccdCreateT, Option.getD_some]
    split
    · exact ⟨⟨_, rfl⟩, by dsimp only; decide⟩
    · split
      · exact ⟨⟨_, rfl⟩, by dsimp only; decide⟩
      · exact ⟨⟨_, rfl⟩, by dsimp only; decide⟩

/-- Witness for the amended C5 theorem at `vi16` with threshold `-1`. -/
theorem threshold_config_witness :
    (∃ msg, ccdCreate vi16 (some (-1)) = Except.error msg) ∧
    CreateEvent.createFilter ∉ (ccdCreateT vi16 (some (-1))).1 :=
  (threshold_config vi16 (-1) (some (-1))).2.2 (by norm_num)

/-- C6: configuration is fail-closed — whenever any validation check fails
(non-RGBS format, dimensions below 12, or negative threshold), `ccdCreate`
reports an error and the `createVideoFilter` step never appears in its trace,
so the kernel is never invoked on that configuration. -/
theorem fail_closed (vi : VSVideoInfo) (t? : Option ℚ)
    (hbad : vi.format.sampleType ≠ SampleType.stFloat ∨ vi.format.bitsPerSample ≠ 32 ∨
      vi.format.colorFamily ≠ ColorFamily.cfRGB ∨ vi.format.subSamplingH ≠ 0 ∨
      vi.format.subSamplingW ≠ 0 ∨ vi.width < (max_radius : ℤ) ∨
      vi.height < (max_radius : ℤ) ∨ t?.getD 4 < 0) :
    (∃ msg, ccdCreate vi t? = Except.error msg) ∧
    CreateEvent.createFilter ∉ (ccdCreateT vi t?).1 := by
  unfold ccdCreate
  simp only [ccdCreateT]
  split
  · exact ⟨⟨_, rfl⟩, by dsimp only; decide⟩
  · split
    · exact ⟨⟨_, rfl⟩, by dsimp only; decide⟩
    · split
      · exact ⟨⟨_, rfl⟩, by dsimp only; decide⟩
      · next h1 h2 h3 =>
        exfalso
        simp only [not_or, not_lt, ne_eq, not_not] at h1 h2
        rcases hbad with h | h | h | h | h | h | h | h <;> simp_all <;> omega

/-- Witness for C6 at an 8×8 RGBS clip, which fails the dimension check. -/
theorem fail_closed_witness :
    (∃ msg, ccdCreate viSmall (some 4) = Except.error msg) ∧
    CreateEvent.createFilter ∉ (ccdCreateT viSmall (some 4)).1 :=
  fail_closed viSmall (some 4) (by decide)

/-- C7: the destination frame produced by `ccdRun` has the same width and
height as the source, and every destination sample is the per-pixel kernel
output; the source frame is only read (`ccdRun` is a pure function of it). -/
theorem pure_transform (f : Frame) (thr_sq : ℚ) (x y : ℤ) :
    (ccdRun f thr_sq).width = f.width ∧
    (ccdRun f thr_sq).height = f.height ∧
    (ccdRun f thr_sq).r y x = (ccdPixel f thr_sq x y).r ∧
    (ccdRun f thr_sq).g y x = (ccdPixel f thr_sq x y).g ∧
    (ccdRun f thr_sq).b y x = (ccdPixel f thr_sq x y).b :=
  ⟨rfl, rfl, rfl, rfl, rfl⟩

/-- C8: every output sample lies in `[0, 1]` for every input, and when the
threshold causes no neighbor beyond the center to be averaged (`n = 1`), an
input pixel already in `[0, 1]` is reproduced exactly. -/
theorem clamp_and_identity (f : Frame) (thr_sq : ℚ) (x y : ℤ) :
    (0 ≤ (ccdPixel f thr_sq x y).r ∧ (ccdPixel f thr_sq x y).r ≤ 1 ∧
     0 ≤ (ccdPixel f thr_sq x y).g ∧ (ccdPixel f thr_sq x y).g ≤ 1 ∧
     0 ≤ (ccdPixel f thr_sq x y).b ∧ (ccdPixel f thr_sq x y).b ≤ 1) ∧
    ((scanAcc f thr_sq x y).n = 1 →
      0 ≤ f.r y x → f.r y x ≤ 1 → 0 ≤ f.g y x → f.g y x ≤ 1 →
      0 ≤ f.b y x → f.b y x ≤ 1 →
      ccdPixel f thr_sq x y = ⟨f.r y x, f.g y x, f.b y x⟩) := by
  constructor
  · exact ⟨(clip01_bounds _).1, (clip01_bounds _).2, (clip01_bounds _).1,
      (clip01_bounds _).2, (clip01_bounds _).1, (clip01_bounds _).2⟩
  · intro hn hr0 hr1 hg0 hg1 hb0 hb1
    exact ccdPixel_id_of_init f thr_sq x y (scanAcc_of_n_eq_one f thr_sq x y hn)
      hr0 hr1 hg0 hg1 hb0 hb1

/-- Witness for C8 at the uniform gray frame with `thr_sq = 0` and pixel
`(3, 3)`. -/
theorem clamp_and_identity_witness :
    0 ≤ (ccdPixel uniformGray 0 3 3).r ∧
    ccdPixel uniformGray 0 3 3 = ⟨1/2, 1/2, 1/2⟩ :=
  ⟨((clamp_and_identity uniformGray 0 3 3).1).1,
   (clamp_and_identity uniformGray 0 3 3).2 (by rw [scanAcc_zero])
     (by norm_num [uniformGray]) (by norm_num [uniformGray]) (by norm_num [uniformGray])
     (by norm_num [uniformGray]) (by norm_num [uniformGray]) (by norm_num [uniformGray])⟩

/-- C9: on the 16×16 uniform gray frame with the default threshold 4.0
(accepted by configuration, yielding `thr_sq = 16/195075`), every neighbor is
within threshold, the count reaches 17, and the output frame is identical to
the input: the average of 17 identical values is the value. -/
theorem uniform_gray_default (x y : ℤ) :
    ccdCreate vi16 none = Except.ok (16 / 195075) ∧
    (scanAcc uniformGray (16 / 195075) x y).n = 17 ∧
    ccdPixel uniformGray (16 / 195075) x y = ⟨1/2, 1/2, 1/2⟩ ∧
    (ccdRun uniformGray (16 / 195075)).r y x = uniformGray.r y x ∧
    (ccdRun uniformGray (16 / 195075)).g y x = uniformGray.g y x ∧
    (ccdRun uniformGray (16 / 195075)).b y x = uniformGray.b y x := by
  have ht : (0 : ℚ) < 16 / 195075 := by norm_num
  have hacc := scanAcc_uniform (16 / 195075) ht x y
  have hpix : ccdPixel uniformGray (16 / 195075) x y = ⟨1/2, 1/2, 1/2⟩ := by
    unfold ccdPixel
    rw [hacc]
    have h17 : RCP_TABLE 17 = 1/17 := by
      norm_num [RCP_TABLE, max_weight, max_kernel_samples, square, max_radius, min_step]
    simp only [h17]
    rw [show (17/2 : ℚ) * (1/17) = 1/2 by norm_num]
    rw [clip01_id (1/2) (by norm_num) (by norm_num)]
  have hcreate : ccdCreate vi16 none = Except.ok (16 / 195075) := by
    unfold ccdCreate
    simp only [ccdCreateT]
    rw [if_neg (by decide), if_neg (by decide), if_neg (by decide)]
    norm_num [square]
  refine ⟨hcreate, by rw [hacc], hpix, ?_, ?_, ?_⟩
  · exact congrArg RGB.r hpix
  · exact congrArg RGB.g hpix
  · exact congrArg RGB.b hpix


/-- C10: an in-range coordinate passes through the reflection map unchanged,
so interior pixels — those at least `radius` away from every edge — sample
exactly the unreflected grid coordinates. -/
theorem wrap_identity_interior (x w d : ℤ)
    (hd : d ∈ kernel_offsets max_radius min_step) :
    (0 ≤ x → x < w → wrap_oob_coord x w = x) ∧
    ((max_radius : ℤ) ≤ x → x + (max_radius : ℤ) < w → wrap_oob_coord (x + d) w = x + d) := by
  rw [kernel_offsets_eq] at hd
  simp only [List.mem_cons, List.not_mem_nil, or_false] at hd
  refine ⟨wrap_id x w, ?_⟩
  intro h1 h2
  have hm : ((max_radius : ℕ) : ℤ) = 12 := by decide
  rw [hm] at h1 h2
  exact wrap_id (x + d) w (by omega) (by omega)

/-- Witness for C10 at `x = 12`, `w = 25`, offset `-12`. -/
theorem wrap_identity_interior_witness :
    wrap_oob_coord 12 25 = 12 ∧ wrap_oob_coord (12 + -12) 25 = 12 + -12 :=
  ⟨(wrap_identity_interior 12 25 (-12) (by decide)).1 (by decide) (by decide),
   (wrap_identity_interior 12 25 (-12) (by decide)).2 (by decide) (by decide)⟩

end CCD
